import Mathlib

/-!
Verification of the retrieval-and-grounding pipeline of the askgeo backend.

The development shallowly embeds the core operations of the service:

* `Retriever.query` / `has_confident_match` (backend/app/rag/retriever.py):
  distance-to-similarity conversion and the confidence gate;
* `ask_question` (backend/app/routers/ask.py): the fallback short-circuit and
  source de-duplication of the answer orchestrator;
* `chunk_text` / `build_index` (backend/app/rag/build_index.py): token
  windowing and chunk-id generation;
* `load_status` / `start_ingest` / `run_ingest_task`
  (backend/app/routers/ingest.py): the persisted ingestion status record.

Modelling conventions: Python floats are embedded as exact rationals (`ℚ`);
the external services (OpenAI embeddings and chat completions, the ChromaDB
collection, the tiktoken tokenizer, the filesystem) are modelled as explicit
parameters or oracles supplying their results, so every function here is the
pure part of the corresponding Python code.  Text is handled at the token
level where the code only manipulates token sequences (token ids are `Nat`).
-/

set_option maxHeartbeats 1600000

/-- A retrieved chunk as produced by `Retriever.query`: the stored document
text plus `url`, `title` and the similarity `score` (a Python float, embedded
as an exact rational). -/
structure Chunk where
  text : String
  url : String
  title : String
  score : ℚ
deriving DecidableEq, Repr

/-- `Retriever.SIMILARITY_THRESHOLD = 0.2`, the minimum similarity score of
the confidence gate. -/
def SIMILARITY_THRESHOLD : ℚ := 0.2

/-- `Retriever.has_confident_match`: `if not chunks: return False;
return any(chunk["score"] >= self.SIMILARITY_THRESHOLD for chunk in chunks)`. -/
def has_confident_match (chunks : List Chunk) : Bool :=
  if chunks.isEmpty then false
  else chunks.any fun chunk => decide (SIMILARITY_THRESHOLD ≤ chunk.score)

/-- The metadata dictionary attached to one stored chunk, as read back from
the vector store (`metadata.get("url", "")` / `metadata.get("title",
"Untitled")` treat the keys as optional). -/
structure RawMetadata where
  url : Option String
  title : Option String
deriving DecidableEq, Repr

/-- One raw nearest-neighbour result returned by the ChromaDB collection:
document text, metadata, and the L2 `distance` to the query embedding. -/
structure RawResult where
  document : String
  metadata : RawMetadata
  distance : ℚ
deriving DecidableEq, Repr

/-- The distance-to-similarity conversion of `Retriever.query`:
`similarity = max(0, 1 - (distance ** 2) / 4)`. -/
def similarity (distance : ℚ) : ℚ :=
  max 0 (1 - distance ^ 2 / 4)

/-- The result-formatting loop of `Retriever.query`: each raw result becomes a
`Chunk` whose score is `similarity` of its distance. -/
def formatResults (results : List RawResult) : List Chunk :=
  results.map fun r =>
    { text := r.document
      url := r.metadata.url.getD ""
      title := r.metadata.title.getD "Untitled"
      score := similarity r.distance }

/-- The retriever state after `__init__`: `collection` is `none` when
`get_collection` raised (the collection does not exist yet), otherwise an
oracle mapping a question and `k` to the raw nearest-neighbour results of the
vector store (embedding the question is part of the oracle). -/
structure Retriever where
  collection : Option (String → Nat → List RawResult)

/-- `Retriever.query`: `if not self.collection: return []`, otherwise query
the collection and format the results. -/
def Retriever.query (self : Retriever) (question : String) (k : Nat) : List Chunk :=
  match self.collection with
  | none => []
  | some coll => formatResults (coll question k)

/-- A source entry of the `/ask` response (`Source(url=..., title=...)`). -/
structure Source where
  url : String
  title : String
deriving DecidableEq, Repr

/-- The fixed fallback answer returned by `ask_question` when no retrieved
chunk meets the confidence threshold. -/
def FALLBACK_ANSWER : String :=
  "I don\x27t have a reliable source to answer that question. Please try rephrasing or ask about UW-Parkside programs, admissions, campus life, or academics."

/-- The source-extraction loop of `ask_question`: walk the retrieved chunks in
rank order, keeping the first occurrence of each URL (`seen_urls` is the set
of already-emitted URLs, `sources` the output accumulator). -/
def extract_sources (seen_urls : List String) (sources : List Source) :
    List Chunk → List Source
  | [] => sources
  | chunk :: rest =>
    if chunk.url ∈ seen_urls then
      extract_sources seen_urls sources rest
    else
      extract_sources (chunk.url :: seen_urls)
        (sources ++ [{ url := chunk.url, title := chunk.title }]) rest

/-- The observable outcome of one `/ask` request: the HTTP-level result
(`Except.error` is the 500 raised on a chat-API failure) and whether the
external chat-completion API was invoked while producing it. -/
structure AskOutcome where
  result : Except String (String × List Source)
  chatCalled : Bool

/-- `ask_question` (routers/ask.py), with retrieval and the chat call
abstracted: `chunks` are the retrieved chunks and `chatCompletion` is the
outcome the external chat API would deliver if invoked.  When the confidence
gate fails the request short-circuits to the fallback answer with no sources
and the chat API is not invoked. -/
def ask_question (chunks : List Chunk) (chatCompletion : Except String String) :
    AskOutcome :=
  if has_confident_match chunks = false then
    { result := Except.ok (FALLBACK_ANSWER, []), chatCalled := false }
  else
    match chatCompletion with
    | Except.error e =>
      { result := Except.error ("OpenAI API error: " ++ e), chatCalled := true }
    | Except.ok answer =>
      { result := Except.ok (answer, extract_sources [] [] chunks), chatCalled := true }

/-- Specification-side description of de-duplication by order of first
appearance: keep the first occurrence of each element, dropping every later
repetition.  Stated from the spec wording and compared with the extraction
loop of `ask_question`. -/
def specFirstSeenDedup : List String → List String
  | [] => []
  | u :: rest => u :: specFirstSeenDedup (rest.filter fun v => decide (v ≠ u))
termination_by l => l.length
decreasing_by
  simp only [List.length_cons]
  exact Nat.lt_succ_of_le (List.length_filter_le _ _)

/-- `IndexBuilder.CHUNK_SIZE = 350` tokens. -/
def CHUNK_SIZE : Nat := 350

/-- One chunk produced by `IndexBuilder.chunk_text`: the token window (the
chunk text is its decoding through the external tokenizer), the 0-based
`chunk_index` within the document, and the window token count. -/
structure ChunkRec where
  window : List Nat
  chunk_index : Nat
  token_count : Nat
deriving DecidableEq, Repr

/-- The window loop of `IndexBuilder.chunk_text`:
`for i in range(0, len(tokens), self.CHUNK_SIZE)` takes the slice
`tokens[i:i + self.CHUNK_SIZE]` and records `chunk_index = len(chunks)`,
the number of chunks emitted so far (`numPrev` here). -/
def chunk_text_go (tokens : List Nat) (numPrev : Nat) : List ChunkRec :=
  if h : tokens = [] then []
  else
    { window := tokens.take CHUNK_SIZE
      chunk_index := numPrev
      token_count := (tokens.take CHUNK_SIZE).length }
      :: chunk_text_go (tokens.drop CHUNK_SIZE) (numPrev + 1)
termination_by tokens.length
decreasing_by
  have hp : 0 < tokens.length := List.length_pos.mpr h
  simp only [List.length_drop, CHUNK_SIZE]
  omega

/-- `IndexBuilder.chunk_text` applied to the token sequence of a text
(tokenisation by the external tiktoken encoder is outside the model). -/
def chunk_text (tokens : List Nat) : List ChunkRec :=
  chunk_text_go tokens 0

/-- One scraped document as loaded from the JSONL file by
`IndexBuilder.build_index`: `url`, optional `title`, and the token sequence of
its `text`. -/
structure Doc where
  url : String
  title : Option String
  text : List Nat
deriving DecidableEq, Repr

/-- The title normalisation of `build_index`:
`doc.get("title") or "Untitled"` replaces a missing or empty title by the
placeholder. -/
def normalizeTitle : Option String → String
  | none => "Untitled"
  | some t => if t = "" then "Untitled" else t

/-- A chunk accumulated in `all_chunks` during `build_index`: the window plus
the metadata dictionary (`url`, `title`, `page_index`, `chunk_index`,
`token_count`). -/
structure IndexedChunk where
  window : List Nat
  url : String
  title : String
  page_index : Nat
  chunk_index : Nat
  token_count : Nat
deriving DecidableEq, Repr

/-- The chunks of one document inside `build_index`: `chunk_text` applied to
the document text, with the per-document base metadata attached and
`page_index` set by the caller. -/
def docChunks (page_idx : Nat) (doc : Doc) : List IndexedChunk :=
  (chunk_text doc.text).map fun cr =>
    { window := cr.window
      url := doc.url
      title := normalizeTitle doc.title
      page_index := page_idx
      chunk_index := cr.chunk_index
      token_count := cr.token_count }

/-- The chunk-accumulation loop of `build_index`:
`for page_idx, doc in enumerate(documents): all_chunks.extend(chunks)`. -/
def allChunks (documents : List Doc) : List IndexedChunk :=
  (documents.enum.map fun pd => docChunks pd.1 pd.2).flatten

/-- `IndexBuilder.BATCH_SIZE = 100`, the embedding batch size. -/
def BATCH_SIZE : Nat := 100

/-- The embedding batch loop of `build_index`:
`for batch_start in range(0, total_chunks, self.BATCH_SIZE)` slices
`all_chunks[batch_start:batch_end]`. -/
def batches {α : Type} : List α → List (List α)
  | [] => []
  | x :: xs => (x :: xs).take BATCH_SIZE :: batches ((x :: xs).drop BATCH_SIZE)
termination_by l => l.length
decreasing_by
  simp only [List.length_drop, List.length_cons, BATCH_SIZE]
  omega

/-- The chunk id computed in `build_index`: the string
`"{page_idx}-{chunk_idx}"`. -/
def chunkId (page_idx chunk_idx : Nat) : String :=
  Nat.repr page_idx ++ "-" ++ Nat.repr chunk_idx

/-- The full list of ids upserted into the collection by one `build_index`
run: for each embedding batch, the ids of its chunks, in batch order. -/
def buildIds (documents : List Doc) : List String :=
  ((batches (allChunks documents)).map fun batch =>
    batch.map fun c => chunkId c.page_index c.chunk_index).flatten

/-- Numeric value of a decimal digit character (inverse of `Nat.digitChar` on
digits), used to state that `Nat.repr` is injective. -/
def digitVal (c : Char) : Nat := c.toNat - 48

/-- Parse a most-significant-first decimal digit string back to a number. -/
def parseDigits (cs : List Char) : Nat :=
  cs.foldl (fun a c => 10 * a + digitVal c) 0

/-- The `status` field of the persisted ingest status record
(`Literal["idle", "running", "done", "error"]`). -/
inductive StatusKind where
  | idle
  | running
  | done
  | error
deriving DecidableEq, Repr

/-- The `IngestStatus` pydantic model (models.py) with its field defaults. -/
structure IngestStatus where
  status : StatusKind
  pages_scraped : Nat := 0
  chunks_indexed : Nat := 0
  started_at : Option String := none
  completed_at : Option String := none
  error_message : Option String := none
deriving DecidableEq, Repr

/-- The state of the persisted status file `data/ingest_status.json`: absent,
present but unreadable (JSON parse failure or pydantic validation failure —
both land in the `except` of `load_status`), or a readable record. -/
inductive StatusFile where
  | missing
  | corrupt
  | valid (s : IngestStatus)
deriving DecidableEq, Repr

/-- `load_status` (routers/ingest.py): a missing or unreadable status file
yields a fresh `IngestStatus(status="idle")` with the model defaults. -/
def load_status : StatusFile → IngestStatus
  | StatusFile.missing => { status := StatusKind.idle }
  | StatusFile.corrupt => { status := StatusKind.idle }
  | StatusFile.valid s => s

/-- The observable outcome of one `/ingest/start` request: the HTTP result
(conflict code and detail, or the acknowledgment body), the persisted status
file after the request, and whether a background ingestion task was
scheduled. -/
structure StartIngestResult where
  response : Except (Nat × String) (String × Nat)
  file : StatusFile
  taskStarted : Bool

/-- `start_ingest` (routers/ingest.py): load the persisted status; if it is
"running", raise a 409 conflict (no task scheduled, file untouched);
otherwise resolve `max_pages` (request value or settings default) and
schedule the background ingestion task. -/
def start_ingest (file : StatusFile) (reqMaxPages : Option Nat)
    (settingsMaxPages : Nat) : StartIngestResult :=
  let current := load_status file
  if current.status = StatusKind.running then
    { response := Except.error (409, "Ingestion already in progress")
      file := file
      taskStarted := false }
  else
    { response := Except.ok ("Ingestion started", reqMaxPages.getD settingsMaxPages)
      file := file
      taskStarted := true }

/-- `run_ingest_task` (routers/ingest.py), as the sequence of `save_status`
writes it performs.  The scrape-and-index body is abstracted by `outcome`:
`Except.ok (pages_scraped, chunks_indexed)` on success, `Except.error msg`
when any exception is raised; `startedAt`/`completedAt` are the wall-clock
timestamps taken at the corresponding points. -/
def run_ingest_task (outcome : Except String (Nat × Nat))
    (startedAt completedAt : String) : List IngestStatus :=
  let running : IngestStatus := { status := StatusKind.running, started_at := some startedAt }
  match outcome with
  | Except.ok pc =>
    [running,
      { status := StatusKind.done
        pages_scraped := pc.1
        chunks_indexed := pc.2
        started_at := running.started_at
        completed_at := some completedAt }]
  | Except.error msg =>
    [running,
      { status := StatusKind.error
        started_at := running.started_at
        completed_at := some completedAt
        error_message := some msg }]

/-! ## Claim theorems -/

/-- C1: `has_confident_match(chunks)` returns true iff `chunks` is non-empty
and at least one chunk's score is ≥ `SIMILARITY_THRESHOLD` (0.2); it returns
false on the empty sequence, a chunk whose score is exactly 0.2 counts as
confident, and a non-empty sequence with all scores below 0.2 is not
confident. -/
theorem c1_confidence_gate (chunks : List Chunk) :
    (has_confident_match chunks = true ↔
      chunks ≠ [] ∧ ∃ c ∈ chunks, SIMILARITY_THRESHOLD ≤ c.score)
    ∧ has_confident_match [] = false
    ∧ (∀ c ∈ chunks, c.score = SIMILARITY_THRESHOLD →
        has_confident_match chunks = true)
    ∧ (chunks ≠ [] → (∀ c ∈ chunks, c.score < SIMILARITY_THRESHOLD) →
        has_confident_match chunks = false) := by
  refine ⟨?_, rfl, ?_, ?_⟩
  · cases chunks with
    | nil => simp [has_confident_match]
    | cons c rest =>
      simp [has_confident_match, List.any_eq_true]
  · intro c hc hscore
    cases chunks with
    | nil => cases hc
    | cons d rest =>
      simp only [has_confident_match, List.isEmpty_cons, if_neg]
      simp only [Bool.false_eq_true, if_false, List.any_eq_true]
      exact ⟨c, hc, by simp [hscore]⟩
  · intro hne hall
    cases chunks with
    | nil => exact absurd rfl hne
    | cons d rest =>
      simp only [has_confident_match, List.isEmpty_cons, Bool.false_eq_true,
        if_false, List.any_eq_false]
      intro c hc
      simpa using not_le.mpr (hall c hc)

/-- Witness for C1 at concrete inputs: a singleton with score exactly 0.2 is
confident, and a non-empty list with score 0.1 is not. -/
theorem c1_confidence_gate_witness :
    has_confident_match [{ text := "t", url := "u", title := "T", score := 0.2 }] = true
    ∧ has_confident_match [{ text := "t", url := "u", title := "T", score := 0.1 }] = false :=
  ⟨(c1_confidence_gate [{ text := "t", url := "u", title := "T", score := 0.2 }]).2.2.1
      { text := "t", url := "u", title := "T", score := 0.2 } (by simp) rfl,
    (c1_confidence_gate [{ text := "t", url := "u", title := "T", score := 0.1 }]).2.2.2
      (by simp)
      (by
        intro c hc
        simp only [List.mem_singleton] at hc
        subst hc
        norm_num [SIMILARITY_THRESHOLD])⟩

/-- C2: every chunk formatted by `Retriever.query` carries the score
`max(0, 1 - d²/4)` for its returned distance `d`; this score lies in `[0, 1]`
for every distance, equals `1` at distance `0`, and is non-increasing as the
distance increases (over non-negative distances). -/
theorem c2_similarity_conversion (results : List RawResult) :
    ((formatResults results).map Chunk.score
      = results.map fun r => similarity r.distance)
    ∧ (∀ d : ℚ, 0 ≤ similarity d ∧ similarity d ≤ 1)
    ∧ similarity 0 = 1
    ∧ (∀ d₁ d₂ : ℚ, 0 ≤ d₁ → d₁ ≤ d₂ → similarity d₂ ≤ similarity d₁) := by
  refine ⟨?_, ?_, ?_, ?_⟩
  · simp [formatResults, List.map_map, Function.comp]
  · intro d
    constructor
    · exact le_max_left 0 _
    · apply max_le (by norm_num)
      have h : 0 ≤ d ^ 2 / 4 := by positivity
      linarith
  · norm_num [similarity]
  · intro d₁ d₂ h0 h12
    apply max_le_max le_rfl
    have h : d₁ ^ 2 ≤ d₂ ^ 2 := by nlinarith
    linarith

/-- Witness for C2 at concrete inputs: scores of a formatted result, bounds at
distance 3, and monotonicity between distances 1 and 3. -/
theorem c2_similarity_conversion_witness :
    ((formatResults [{ document := "d", metadata := ⟨some "u", some "T"⟩, distance := 1 }]).map Chunk.score
      = [similarity 1])
    ∧ 0 ≤ similarity 3 ∧ similarity 3 ≤ 1
    ∧ (0 : ℚ) ≤ 1 ∧ (1 : ℚ) ≤ 3
    ∧ similarity 3 ≤ similarity 1 :=
  ⟨(c2_similarity_conversion [{ document := "d", metadata := ⟨some "u", some "T"⟩, distance := 1 }]).1,
    ((c2_similarity_conversion []).2.1 3).1,
    ((c2_similarity_conversion []).2.1 3).2,
    by norm_num, by norm_num,
    (c2_similarity_conversion []).2.2.2 1 3 (by norm_num) (by norm_num)⟩

/-- C3: whenever `has_confident_match` is false on the retrieved chunks,
`ask_question` returns the fixed fallback answer with an empty source list
and the external chat-completion API is not invoked. -/
theorem c3_fallback_short_circuit (chunks : List Chunk)
    (chat : Except String String)
    (h : has_confident_match chunks = false) :
    ask_question chunks chat
      = { result := Except.ok (FALLBACK_ANSWER, []), chatCalled := false } := by
  simp [ask_question, h]

/-- Witness for C3: the empty retrieval has no confident match and
short-circuits to the fallback without calling the chat API. -/
theorem c3_fallback_short_circuit_witness :
    has_confident_match [] = false
    ∧ ask_question [] (Except.ok "some answer")
      = { result := Except.ok (FALLBACK_ANSWER, []), chatCalled := false } :=
  ⟨rfl, c3_fallback_short_circuit [] (Except.ok "some answer") rfl⟩

/-- C7: when the vector collection does not exist (the retriever holds no
collection), `Retriever.query` returns the empty sequence for every question
and every `k`, rather than raising an error. -/
theorem c7_missing_collection (r : Retriever) (question : String) (k : Nat)
    (h : r.collection = none) :
    r.query question k = [] := by
  simp [Retriever.query, h]

/-- Witness for C7: a retriever built without a collection returns no chunks. -/
theorem c7_missing_collection_witness :
    (Retriever.mk none).collection = none
    ∧ Retriever.query (Retriever.mk none) "any question" 5 = [] :=
  ⟨rfl, c7_missing_collection (Retriever.mk none) "any question" 5 rfl⟩

/-- C8: if the persisted status record loads with status "running",
`start_ingest` rejects the request with a 409 conflict, schedules no
background ingestion task, and leaves the persisted status file unchanged. -/
theorem c8_ingest_conflict (file : StatusFile) (reqMaxPages : Option Nat)
    (settingsMaxPages : Nat)
    (h : (load_status file).status = StatusKind.running) :
    start_ingest file reqMaxPages settingsMaxPages
      = { response := Except.error (409, "Ingestion already in progress")
          file := file
          taskStarted := false } := by
  simp [start_ingest, h]

/-- Witness for C8: a status file holding a "running" record is rejected. -/
theorem c8_ingest_conflict_witness :
    (load_status (StatusFile.valid { status := StatusKind.running })).status
      = StatusKind.running
    ∧ start_ingest (StatusFile.valid { status := StatusKind.running }) none 500
      = { response := Except.error (409, "Ingestion already in progress")
          file := StatusFile.valid { status := StatusKind.running }
          taskStarted := false } :=
  ⟨rfl, c8_ingest_conflict (StatusFile.valid { status := StatusKind.running })
    none 500 rfl⟩

/-- C9: a terminating run of the background ingestion task writes the status
record exactly twice: first "running" with the start timestamp, then on
termination "done" with the scraped/indexed counts on success or "error" with
the failure message on an exception; the final write is never "running". -/
theorem c9_ingest_status_lifecycle (outcome : Except String (Nat × Nat))
    (startedAt completedAt : String) :
    run_ingest_task outcome startedAt completedAt
      = [{ status := StatusKind.running, started_at := some startedAt },
          match outcome with
          | Except.ok pc =>
            { status := StatusKind.done
              pages_scraped := pc.1
              chunks_indexed := pc.2
              started_at := some startedAt
              completed_at := some completedAt }
          | Except.error msg =>
            { status := StatusKind.error
              started_at := some startedAt
              completed_at := some completedAt
              error_message := some msg }]
    ∧ ((run_ingest_task outcome startedAt completedAt).getLastD
        { status := StatusKind.running }).status ≠ StatusKind.running := by
  cases outcome with
  | ok pc => exact ⟨rfl, by simp [run_ingest_task]⟩
  | error msg => exact ⟨rfl, by simp [run_ingest_task]⟩

/-- Witness for C9: evaluation of the write trace for one successful run and
one failing run. -/
theorem c9_ingest_status_lifecycle_witness :
    run_ingest_task (Except.ok (3, 7)) "t0" "t1"
      = [{ status := StatusKind.running, started_at := some "t0" },
          { status := StatusKind.done
            pages_scraped := 3
            chunks_indexed := 7
            started_at := some "t0"
            completed_at := some "t1" }]
    ∧ ((run_ingest_task (Except.error "boom") "t0" "t1").getLastD
        { status := StatusKind.running }).status ≠ StatusKind.running :=
  ⟨(c9_ingest_status_lifecycle (Except.ok (3, 7)) "t0" "t1").1,
    (c9_ingest_status_lifecycle (Except.error "boom") "t0" "t1").2⟩

/-- C10: a missing or unreadable persisted status file loads as a fresh
record with status "idle" and zero counts, and the ingestion-start conflict
guard therefore treats it exactly like an idle system: the request is
accepted and a background task is scheduled, just as for a validly persisted
idle record. -/
theorem c10_load_status_default :
    load_status StatusFile.missing = { status := StatusKind.idle }
    ∧ load_status StatusFile.corrupt = { status := StatusKind.idle }
    ∧ (∀ reqMaxPages settingsMaxPages,
        (start_ingest StatusFile.missing reqMaxPages settingsMaxPages).response
          = (start_ingest (StatusFile.valid { status := StatusKind.idle })
              reqMaxPages settingsMaxPages).response
        ∧ (start_ingest StatusFile.missing reqMaxPages settingsMaxPages).taskStarted
          = true)
    ∧ (∀ reqMaxPages settingsMaxPages,
        (start_ingest StatusFile.corrupt reqMaxPages settingsMaxPages).response
          = (start_ingest (StatusFile.valid { status := StatusKind.idle })
              reqMaxPages settingsMaxPages).response
        ∧ (start_ingest StatusFile.corrupt reqMaxPages settingsMaxPages).taskStarted
          = true) :=
  ⟨rfl, rfl, fun _ _ => ⟨rfl, rfl⟩, fun _ _ => ⟨rfl, rfl⟩⟩

/-! ## Chunking lemmas (claim C4) -/

theorem chunk_text_go_nil (k : Nat) : chunk_text_go [] k = [] := by
  unfold chunk_text_go
  simp

theorem chunk_text_go_cons (tokens : List Nat) (h : tokens ≠ []) (k : Nat) :
    chunk_text_go tokens k
      = { window := tokens.take CHUNK_SIZE
          chunk_index := k
          token_count := (tokens.take CHUNK_SIZE).length }
        :: chunk_text_go (tokens.drop CHUNK_SIZE) (k + 1) := by
  rw [chunk_text_go]
  simp [h]

theorem chunk_text_go_length (tokens : List Nat) (k : Nat) :
    (chunk_text_go tokens k).length
      = (tokens.length + (CHUNK_SIZE - 1)) / CHUNK_SIZE := by
  induction tokens, k using chunk_text_go.induct with
  | case1 k => simp [chunk_text_go_nil, CHUNK_SIZE]
  | case2 tokens k h ih =>
    rw [chunk_text_go_cons tokens h k]
    simp only [List.length_cons, ih, List.length_drop]
    have hp : 0 < tokens.length := List.length_pos.mpr h
    simp only [CHUNK_SIZE] at *
    omega

theorem chunk_text_go_flatten (tokens : List Nat) (k : Nat) :
    ((chunk_text_go tokens k).map ChunkRec.window).flatten = tokens := by
  induction tokens, k using chunk_text_go.induct with
  | case1 k => simp [chunk_text_go_nil]
  | case2 tokens k h ih =>
    rw [chunk_text_go_cons tokens h k]
    simp only [List.map_cons, List.flatten_cons, ih]
    exact List.take_append_drop CHUNK_SIZE tokens

theorem chunk_text_go_indices (tokens : List Nat) (k : Nat) :
    (chunk_text_go tokens k).map ChunkRec.chunk_index
      = List.range' k (chunk_text_go tokens k).length := by
  induction tokens, k using chunk_text_go.induct with
  | case1 k => simp [chunk_text_go_nil]
  | case2 tokens k h ih =>
    rw [chunk_text_go_cons tokens h k]
    simp only [List.map_cons, List.length_cons, List.range'_succ, ih]

theorem chunk_text_go_full_windows (tokens : List Nat) (k : Nat) :
    ((chunk_text_go tokens k).dropLast.all
      fun c => c.window.length == CHUNK_SIZE) = true := by
  induction tokens, k using chunk_text_go.induct with
  | case1 k => simp [chunk_text_go_nil]
  | case2 tokens k h ih =>
    rw [chunk_text_go_cons tokens h k]
    by_cases hd : tokens.drop CHUNK_SIZE = []
    · simp [hd, chunk_text_go_nil]
    · rw [chunk_text_go_cons _ hd (k + 1)] at ih ⊢
      simp only [List.dropLast_cons₂, List.all_cons, ih, Bool.and_true]
      have hlen : CHUNK_SIZE < tokens.length := by
        have := List.length_pos.mpr hd
        simp only [List.length_drop] at this
        omega
      simp [List.length_take, Nat.min_eq_left (Nat.le_of_lt hlen)]

theorem chunk_text_go_window_le (tokens : List Nat) (k : Nat) :
    ((chunk_text_go tokens k).all
      fun c => decide (c.window.length ≤ CHUNK_SIZE)) = true := by
  induction tokens, k using chunk_text_go.induct with
  | case1 k => simp [chunk_text_go_nil]
  | case2 tokens k h ih =>
    rw [chunk_text_go_cons tokens h k]
    simp only [List.all_cons, ih, Bool.and_true, decide_eq_true_eq]
    simp [List.length_take]

/-- C4: `chunk_text` splits a token sequence into contiguous, non-overlapping
windows: it produces exactly `⌈token_count / 350⌉` chunks, the windows
concatenate back to the full token sequence with no gaps or overlaps, the
`chunk_index` values are `0, 1, 2, …` in order, every window except possibly
the last has exactly `CHUNK_SIZE = 350` tokens (and none exceeds 350), and an
empty token sequence yields zero chunks rather than an error. -/
theorem c4_chunking (tokens : List Nat) :
    (chunk_text tokens).length = (tokens.length + (CHUNK_SIZE - 1)) / CHUNK_SIZE
    ∧ ((chunk_text tokens).map ChunkRec.window).flatten = tokens
    ∧ (chunk_text tokens).map ChunkRec.chunk_index
        = List.range (chunk_text tokens).length
    ∧ ((chunk_text tokens).dropLast.all
        fun c => c.window.length == CHUNK_SIZE) = true
    ∧ ((chunk_text tokens).all
        fun c => decide (c.window.length ≤ CHUNK_SIZE)) = true
    ∧ (tokens = [] → chunk_text tokens = []) := by
  refine ⟨chunk_text_go_length tokens 0, chunk_text_go_flatten tokens 0, ?_,
    chunk_text_go_full_windows tokens 0, chunk_text_go_window_le tokens 0, ?_⟩
  · rw [List.range_eq_range']
    exact chunk_text_go_indices tokens 0
  · intro h
    subst h
    exact chunk_text_go_nil 0

/-- Witness for C4: the empty token sequence yields zero chunks, and a
concrete 3-token text yields one window carrying all tokens at index 0. -/
theorem c4_chunking_witness :
    (([] : List Nat) = []) ∧ chunk_text [] = []
    ∧ ((chunk_text [5, 6, 7]).map ChunkRec.window).flatten = [5, 6, 7] :=
  ⟨rfl, (c4_chunking []).2.2.2.2.2 rfl, (c4_chunking [5, 6, 7]).2.1⟩

/-! ## Source de-duplication lemmas (claim C6) -/

theorem mem_specFirstSeenDedup (l : List String) :
    ∀ u, u ∈ specFirstSeenDedup l ↔ u ∈ l := by
  induction l using specFirstSeenDedup.induct with
  | case1 => simp [specFirstSeenDedup]
  | case2 u₀ rest ih =>
    intro u
    rw [specFirstSeenDedup]
    simp only [List.mem_cons, ih, List.mem_filter, decide_eq_true_eq]
    by_cases h : u = u₀ <;> simp [h]

theorem nodup_specFirstSeenDedup (l : List String) :
    (specFirstSeenDedup l).Nodup := by
  induction l using specFirstSeenDedup.induct with
  | case1 => simp [specFirstSeenDedup]
  | case2 u₀ rest ih =>
    rw [specFirstSeenDedup]
    refine List.nodup_cons.mpr ⟨?_, ih⟩
    intro hmem
    rw [mem_specFirstSeenDedup] at hmem
    simp [List.mem_filter] at hmem

theorem filter_notin_cons (a : String) (seen : List String) (l : List String) :
    ((l.filter fun u => decide (u ∉ seen)).filter fun u => decide (u ≠ a))
      = l.filter fun u => decide (u ∉ a :: seen) := by
  rw [List.filter_filter]
  apply List.filter_congr
  intro u _
  rw [← Bool.decide_and, decide_eq_decide]
  simp only [List.mem_cons, not_or]

theorem extract_sources_invariant (chunks : List Chunk) :
    ∀ (seen : List String) (sources : List Source),
      (extract_sources seen sources chunks).map Source.url
        = sources.map Source.url
          ++ specFirstSeenDedup
              ((chunks.map Chunk.url).filter fun u => decide (u ∉ seen)) := by
  induction chunks with
  | nil =>
    intro seen sources
    simp [extract_sources, specFirstSeenDedup]
  | cons chunk rest ih =>
    intro seen sources
    by_cases h : chunk.url ∈ seen
    · rw [extract_sources]
      simp only [if_pos h, ih]
      simp [List.filter_cons, h]
    · rw [extract_sources]
      simp only [if_neg h, ih]
      simp only [List.map_cons, List.filter_cons, decide_eq_true_eq]
      rw [if_pos h]
      rw [specFirstSeenDedup]
      rw [filter_notin_cons]
      simp

/-- C6: the source list returned by the answer operation contains each
distinct URL of the retrieved chunks exactly once, ordered by the first
appearance of that URL in retrieved (rank) order: its URL sequence equals the
first-seen de-duplication of the chunk URL sequence, it has no duplicates,
it covers exactly the retrieved URLs, and it is precisely the source list the
confident branch of `ask_question` returns. -/
theorem c6_source_dedup (chunks : List Chunk) :
    ((extract_sources [] [] chunks).map Source.url
      = specFirstSeenDedup (chunks.map Chunk.url))
    ∧ ((extract_sources [] [] chunks).map Source.url).Nodup
    ∧ (∀ u, u ∈ (extract_sources [] [] chunks).map Source.url
        ↔ u ∈ chunks.map Chunk.url)
    ∧ (∀ answer, has_confident_match chunks = true →
        (ask_question chunks (Except.ok answer)).result
          = Except.ok (answer, extract_sources [] [] chunks)) := by
  have hbase : (extract_sources [] [] chunks).map Source.url
      = specFirstSeenDedup (chunks.map Chunk.url) := by
    have h := extract_sources_invariant chunks [] []
    simpa using h
  refine ⟨hbase, ?_, ?_, ?_⟩
  · rw [hbase]
    exact nodup_specFirstSeenDedup _
  · intro u
    rw [hbase]
    exact mem_specFirstSeenDedup _ u
  · intro answer h
    simp [ask_question, h]

/-- Witness for C6: a confident retrieval (score 1) goes through the chat
branch and returns exactly the de-duplicated source list. -/
theorem c6_source_dedup_witness :
    has_confident_match [{ text := "t", url := "u", title := "T", score := 1 }] = true
    ∧ (ask_question [{ text := "t", url := "u", title := "T", score := 1 }]
        (Except.ok "ans")).result
      = Except.ok ("ans",
          extract_sources [] [] [{ text := "t", url := "u", title := "T", score := 1 }]) :=
  ⟨by norm_num [has_confident_match, SIMILARITY_THRESHOLD],
    (c6_source_dedup [{ text := "t", url := "u", title := "T", score := 1 }]).2.2.2 "ans"
      (by norm_num [has_confident_match, SIMILARITY_THRESHOLD])⟩

/-! ## Decimal representation lemmas (claim C5)

`chunkId` renders both indices through `Nat.repr`; the lemmas below show that
decimal digit strings contain no dash and that `Nat.repr` is injective, so the
`"{page_index}-{chunk_index}"` encoding of a pair of indices is injective. -/

theorem toDigitsCore_append (fuel : Nat) :
    ∀ (n : Nat) (ds : List Char),
      Nat.toDigitsCore 10 fuel n ds = Nat.toDigitsCore 10 fuel n [] ++ ds := by
  induction fuel with
  | zero => intro n ds; simp [Nat.toDigitsCore]
  | succ f ih =>
    intro n ds
    simp only [Nat.toDigitsCore]
    by_cases h : n / 10 = 0
    · simp [h]
    · simp only [h, if_false]
      rw [ih (n / 10) (Nat.digitChar (n % 10) :: ds),
        ih (n / 10) [Nat.digitChar (n % 10)]]
      simp

theorem digitChar_ne_dash (n : Nat) : Nat.digitChar n ≠ '-' := by
  by_cases h : n < 16
  · interval_cases n <;> decide
  · unfold Nat.digitChar
    repeat rw [if_neg (by omega)]
    decide

theorem toDigitsCore_no_dash (fuel : Nat) :
    ∀ (n : Nat) (ds : List Char), '-' ∉ ds → '-' ∉ Nat.toDigitsCore 10 fuel n ds := by
  induction fuel with
  | zero => intro n ds h; simpa [Nat.toDigitsCore] using h
  | succ f ih =>
    intro n ds h
    simp only [Nat.toDigitsCore]
    by_cases hz : n / 10 = 0
    · simp only [hz, if_pos]
      intro hc
      rcases List.mem_cons.mp hc with h1 | h2
      · exact digitChar_ne_dash (n % 10) h1.symm
      · exact h h2
    · simp only [hz, if_false]
      apply ih
      intro hc
      rcases List.mem_cons.mp hc with h1 | h2
      · exact digitChar_ne_dash (n % 10) h1.symm
      · exact h h2

theorem digitVal_digitChar (m : Nat) (h : m < 10) : digitVal (Nat.digitChar m) = m := by
  interval_cases m <;> decide

theorem parseDigits_append (l : List Char) (c : Char) :
    parseDigits (l ++ [c]) = 10 * parseDigits l + digitVal c := by
  simp [parseDigits, List.foldl_append]

theorem parse_toDigitsCore (fuel : Nat) :
    ∀ n : Nat, n < fuel → parseDigits (Nat.toDigitsCore 10 fuel n []) = n := by
  induction fuel with
  | zero => intro n h; omega
  | succ f ih =>
    intro n hn
    simp only [Nat.toDigitsCore]
    by_cases hz : n / 10 = 0
    · have h10 : n < 10 := by omega
      have hmod : n % 10 = n := by omega
      simp only [hz, if_pos, hmod]
      simp [parseDigits, digitVal_digitChar n h10]
    · simp only [hz, if_false]
      rw [toDigitsCore_append f (n / 10) [Nat.digitChar (n % 10)],
        parseDigits_append, ih (n / 10) (by omega),
        digitVal_digitChar (n % 10) (by omega)]
      omega

theorem parse_repr_data (n : Nat) : parseDigits (Nat.repr n).data = n := by
  have h : (Nat.repr n).data = Nat.toDigitsCore 10 (n + 1) n [] := rfl
  rw [h]
  exact parse_toDigitsCore (n + 1) n (Nat.lt_succ_self n)

theorem repr_data_no_dash (n : Nat) : '-' ∉ (Nat.repr n).data := by
  have h : (Nat.repr n).data = Nat.toDigitsCore 10 (n + 1) n [] := rfl
  rw [h]
  exact toDigitsCore_no_dash (n + 1) n [] (by simp)

theorem split_on_dash :
    ∀ (l₁ l₂ r₁ r₂ : List Char), '-' ∉ l₁ → '-' ∉ l₂ →
      l₁ ++ '-' :: r₁ = l₂ ++ '-' :: r₂ → l₁ = l₂ ∧ r₁ = r₂ := by
  intro l₁
  induction l₁ with
  | nil =>
    intro l₂ r₁ r₂ h₁ h₂ heq
    cases l₂ with
    | nil =>
      simp only [List.nil_append] at heq
      injection heq with _ hr
      exact ⟨rfl, hr⟩
    | cons b bs =>
      simp only [List.nil_append, List.cons_append] at heq
      injection heq with hb _
      exact absurd (hb ▸ List.mem_cons_self b bs) h₂
  | cons a as ih =>
    intro l₂ r₁ r₂ h₁ h₂ heq
    cases l₂ with
    | nil =>
      simp only [List.cons_append, List.nil_append] at heq
      injection heq with ha _
      exact absurd (ha ▸ List.mem_cons_self a as) h₁
    | cons b bs =>
      simp only [List.cons_append] at heq
      injection heq with hab htail
      subst hab
      obtain ⟨he, hr⟩ := ih bs r₁ r₂
        (fun hm => h₁ (List.mem_cons_of_mem a hm))
        (fun hm => h₂ (List.mem_cons_of_mem a hm)) htail
      exact ⟨by rw [he], hr⟩

theorem chunkId_inj {p₁ c₁ p₂ c₂ : Nat}
    (h : chunkId p₁ c₁ = chunkId p₂ c₂) : p₁ = p₂ ∧ c₁ = c₂ := by
  have hdata := congrArg String.data h
  simp only [chunkId, String.data_append] at hdata
  rw [List.append_assoc, List.append_assoc,
    List.singleton_append, List.singleton_append] at hdata
  obtain ⟨hp, hc⟩ := split_on_dash _ _ _ _
    (repr_data_no_dash p₁) (repr_data_no_dash p₂) hdata
  constructor
  · have hparse := congrArg parseDigits hp
    rwa [parse_repr_data, parse_repr_data] at hparse
  · have hparse := congrArg parseDigits hc
    rwa [parse_repr_data, parse_repr_data] at hparse

/-! ## Chunk-id uniqueness (claim C5) -/

theorem batches_flatten {α : Type} (l : List α) : (batches l).flatten = l := by
  induction l using batches.induct with
  | case1 => simp [batches]
  | case2 x xs ih =>
    rw [batches]
    simp only [List.flatten_cons, ih]
    exact List.take_append_drop _ _

theorem buildIds_eq_map (documents : List Doc) :
    buildIds documents
      = (allChunks documents).map fun c => chunkId c.page_index c.chunk_index := by
  unfold buildIds
  rw [← List.map_flatten, batches_flatten]

theorem docChunks_ids (i : Nat) (d : Doc) :
    (docChunks i d).map (fun c => chunkId c.page_index c.chunk_index)
      = ((chunk_text d.text).map ChunkRec.chunk_index).map (chunkId i) := by
  simp [docChunks, List.map_map, Function.comp]

theorem docChunks_ids_nodup (i : Nat) (d : Doc) :
    ((docChunks i d).map fun c => chunkId c.page_index c.chunk_index).Nodup := by
  rw [docChunks_ids]
  unfold chunk_text
  rw [chunk_text_go_indices]
  apply List.Nodup.map
  · intro a b hab
    exact (chunkId_inj hab).2
  · exact List.nodup_range' 0 _

theorem mem_docChunks_ids (i : Nat) (d : Doc) (x : String)
    (hx : x ∈ (docChunks i d).map fun c => chunkId c.page_index c.chunk_index) :
    ∃ j, x = chunkId i j := by
  rw [docChunks_ids] at hx
  simp only [List.mem_map] at hx
  obtain ⟨j, _, hj⟩ := hx
  exact ⟨j, hj.symm⟩

/-- C5: the chunk ids `"{page_index}-{chunk_index}"` computed during one
`build_index` run — `page_index` being the document's 0-based position in the
batch and `chunk_index` the chunk's 0-based position within its document —
are pairwise distinct across the whole index. -/
theorem c5_chunk_id_uniqueness (documents : List Doc) :
    (buildIds documents).Nodup := by
  rw [buildIds_eq_map]
  unfold allChunks
  rw [List.map_flatten, List.map_map]
  rw [List.nodup_flatten]
  constructor
  · intro l hl
    simp only [List.mem_map, Function.comp] at hl
    obtain ⟨pd, _, hpd⟩ := hl
    rw [← hpd]
    exact docChunks_ids_nodup pd.1 pd.2
  · rw [List.pairwise_map]
    have hfst : (documents.enum.map Prod.fst).Nodup := List.nodup_enum_map_fst _
    have hpair : documents.enum.Pairwise fun a b => a.1 ≠ b.1 :=
      List.pairwise_map.mp hfst
    refine List.Pairwise.imp ?_ hpair
    intro a b hne x hxa hxb
    simp only [Function.comp] at hxa hxb
    obtain ⟨j₁, hj₁⟩ := mem_docChunks_ids a.1 a.2 x hxa
    obtain ⟨j₂, hj₂⟩ := mem_docChunks_ids b.1 b.2 x hxb
    exact hne (chunkId_inj (hj₁ ▸ hj₂)).1
